import Mathlib

/-!
Shallow embedding of celery/beat.py (periodic task scheduler).

Timestamps (datetime.now values) are modelled as integers; durations
(timedeltas and remaining times) are modelled as integers as well, since
only their ordering and Python truthiness (nonzero test) matter to the
scheduler core. Python wall-clock reads are made explicit: every function
that calls datetime.now in the source takes a now parameter. Mutation of
the shared schedule dict is modelled by explicit state passing: functions
that assign into self.schedule return the updated store. The external
dispatch interface (celery.execute.send_task) is a parameter that either
returns a task id or fails, mirroring a transport call that may raise.
-/

set_option autoImplicit false

namespace Beat

/-- Timestamps and durations, as in the module docstring above. -/
abbrev Time := Int

/-- Opaque argument payloads carried by an entry (args tuple). -/
abbrev Args := List Int

/-- Opaque keyword payloads (kwargs and options dicts). -/
abbrev Kwargs := List (String × Int)

/-- Result of celery.execute.send_task: a handle carrying the task id. -/
structure TaskResult where
  task_id : String
  deriving DecidableEq

/-- The external dispatch interface: send_task(name, args, kwargs, **options)
either returns a result or raises (modelled as an error message). -/
abbrev Dispatch := String → Args → Kwargs → Kwargs → Except String TaskResult

/-- SchedulingError(msg): raised by Scheduler.apply_async when the dispatch
call fails; carries the entry name and the original cause. -/
structure SchedulingError where
  task : String
  cause : String
  deriving DecidableEq

/-- A schedule policy object (celery.schedules): exposes
is_due(last_run_at) returning (is due now, remaining time). The policy
internals are external to beat.py; the core consumes only this method. -/
structure SchedPolicy where
  is_due : Time → Bool × Int

/-- ScheduleEntry from beat.py, parametrised by the type of its schedule
field (the Python object is duck-typed: configuration expansion stores
shorthand forms, ticking expects a policy object). -/
structure ScheduleEntry (σ : Type) where
  name : String
  schedule : σ
  args : Args
  kwargs : Kwargs
  options : Kwargs
  last_run_at : Time
  total_run_count : Nat

/-- Python x or d for an optional integer-like value: None and 0 both fall
back to the default. -/
def pyOrNat (x : Option Nat) (d : Nat) : Nat :=
  match x with
  | none => d
  | some v => if v = 0 then d else v

/-- Python x or d for an optional duration. -/
def pyOrInt (x : Option Int) (d : Int) : Int :=
  match x with
  | none => d
  | some v => if v = 0 then d else v

/-- ScheduleEntry.__init__: last_run_at defaults to datetime.now() (the
now argument) when absent, total_run_count to 0 via Python or. -/
def ScheduleEntry.init {σ : Type} (name : String) (schedule : σ) (args : Args)
    (kwargs : Kwargs) (options : Kwargs) (last_run_at : Option Time)
    (total_run_count : Option Nat) (now : Time) : ScheduleEntry σ :=
  { name := name
    schedule := schedule
    args := args
    kwargs := kwargs
    options := options
    last_run_at := last_run_at.getD now
    total_run_count := pyOrNat total_run_count 0 }

/-- ScheduleEntry.next: returns a new instance of the same class with its
date and count fields updated (last_run_at := datetime.now(), count + 1). -/
def ScheduleEntry.next {σ : Type} (e : ScheduleEntry σ) (now : Time) :
    ScheduleEntry σ :=
  ScheduleEntry.init e.name e.schedule e.args e.kwargs e.options
    (some now) (some (e.total_run_count + 1)) now

/-- ScheduleEntry.is_due: delegates to self.schedule.is_due(self.last_run_at). -/
def ScheduleEntry.due (e : ScheduleEntry SchedPolicy) : Bool × Int :=
  e.schedule.is_due e.last_run_at

/-- An entry of the scheduler store, keyed by name. -/
abbrev Entry := ScheduleEntry SchedPolicy

/-- The schedule dict: entry name to entry, in insertion order. -/
abbrev Store := List (String × Entry)

/-- Python dict assignment d[k] = v on an association list: replaces the
binding when the key is present, appends it otherwise. -/
def storeSet {α : Type} : List (String × α) → String → α → List (String × α)
  | [], n, v => [(n, v)]
  | (k, e) :: rest, n, v =>
      if k = n then (n, v) :: rest else (k, e) :: storeSet rest n v

/-- Python dict lookup d[k] on an association list. -/
def storeGet {α : Type} : List (String × α) → String → Option α
  | [], _ => none
  | (k, e) :: rest, n => if k = n then some e else storeGet rest n

/-- The key set of the store, in order. -/
def keys {α : Type} (s : List (String × α)) : List String :=
  s.map Prod.fst

namespace Scheduler

/-- Scheduler.reserve: new_entry = self.schedule[entry.name] = entry.next();
returns the updated store together with the new entry. -/
def reserve (store : Store) (entry : Entry) (now : Time) : Store × Entry :=
  let new_entry := entry.next now
  (storeSet store entry.name new_entry, new_entry)

/-- Scheduler.apply_async: reserves the entry first (run state is advanced
before the dispatch attempt), then calls send_task; any exception from the
dispatch call is re-raised as a SchedulingError. The updated store is
returned in both outcomes, since the reserve assignment already happened. -/
def apply_async (store : Store) (entry : Entry) (now : Time)
    (dispatch : Dispatch) : Store × Except SchedulingError TaskResult :=
  let (store, entry) := reserve store entry now
  match dispatch entry.name entry.args entry.kwargs entry.options with
  | .ok result => (store, .ok result)
  | .error exc => (store, .error ⟨entry.name, exc⟩)

/-- Scheduler.maybe_due: evaluates is_due(); when due, calls apply_async
and catches SchedulingError (it is only logged); returns next_time_to_run
in every case. -/
def maybe_due (store : Store) (entry : Entry) (now : Time)
    (dispatch : Dispatch) : Store × Int :=
  let (is_due, next_time_to_run) := entry.due
  if is_due then
    match apply_async store entry now dispatch with
    | (store, .ok _result) => (store, next_time_to_run)
    | (store, .error _exc) => (store, next_time_to_run)
  else
    (store, next_time_to_run)

/-- The loop body of Scheduler.tick over self.schedule.itervalues():
threads the store through maybe_due and appends each truthy (nonzero)
next_time_to_run to remaining_times. Iteration is over the values the
dict held when the loop started; reserve only rebinds the key already
yielded, so this matches the live Python iteration. -/
def tick_go (now : Time) (dispatch : Dispatch) :
    Store × List Int → List (String × Entry) → Store × List Int
  | acc, [] => acc
  | (store, remaining_times), (_, entry) :: rest =>
      let (store, next_time_to_run) := maybe_due store entry now dispatch
      tick_go now dispatch
        (store,
          if next_time_to_run ≠ 0 then remaining_times ++ [next_time_to_run]
          else remaining_times) rest

/-- Python min over a nonempty list. -/
def pymin : List Int → Int
  | [] => 0
  | x :: xs => xs.foldl min x

/-- Scheduler.tick: one iteration of the scheduler; executes all due tasks
and returns min(remaining_times + [self.max_interval]). -/
def tick (store : Store) (max_interval : Int) (now : Time)
    (dispatch : Dispatch) : Store × Int :=
  let (store, remaining_times) := tick_go now dispatch (store, []) store
  (store, pymin (remaining_times ++ [max_interval]))

end Scheduler

/-- A Python value standing where a schedule specification may stand:
an int (seconds shorthand), a datetime.timedelta, or an instance of the
celery.schedules.schedule policy class, schedule(run_every, relative).
Only the constructor shape of the policy class is needed by beat.py. -/
inductive PySched where
  | int (seconds : Int)
  | timedelta (seconds : Int)
  | policy (run_every : Int) (relative : Option Bool)
  deriving DecidableEq

namespace Scheduler

/-- Scheduler.maybe_schedule: an int returns timedelta(seconds=s) directly
(no further wrapping); a timedelta is wrapped into schedule(s, relative);
anything else is returned as is. The relative argument is the value popped
from the configuration entry (None when absent, a falsy default). -/
def maybe_schedule (s : PySched) (relative : Option Bool) : PySched :=
  match s with
  | .int n => .timedelta n
  | .timedelta d => .policy d relative
  | s => s

/-- One value of the static configuration dict conf.CELERYBEAT_SCHEDULE:
the keyword arguments for the Entry constructor plus the optional
relative flag that dict_to_entries pops before constructing the entry. -/
structure ConfigEntry where
  name : String
  schedule : PySched
  relative : Option Bool := none
  args : Args := []
  kwargs : Kwargs := []
  options : Kwargs := []
  last_run_at : Option Time := none
  total_run_count : Option Nat := none

/-- The store of entries as built from configuration (schedules still in
their expanded PySched form; ticking would duck-type them as policies). -/
abbrev ConfStore := List (String × ScheduleEntry PySched)

/-- The body of Scheduler.dict_to_entries for one configuration value:
relative = entry.pop("relative", None);
entry["schedule"] = maybe_schedule(entry["schedule"], relative);
self.Entry(**entry). The relative key no longer appears among the
constructor arguments: ScheduleEntry has no such field. -/
def entry_of_config (c : ConfigEntry) (now : Time) : ScheduleEntry PySched :=
  let relative := c.relative
  let sched := maybe_schedule c.schedule relative
  ScheduleEntry.init c.name sched c.args c.kwargs c.options
    c.last_run_at c.total_run_count now

/-- Scheduler.dict_to_entries: builds a fresh dict entries[name] = Entry(...)
over the items of the configuration dict. -/
def dict_to_entries (dict_ : List (String × ConfigEntry)) (now : Time) :
    ConfStore :=
  dict_.foldl (fun entries p => storeSet entries p.1 (entry_of_config p.2 now)) []

/-- The state a Scheduler holds after __init__ (logger omitted: it carries
no scheduling state). -/
structure State where
  data : ConfStore
  max_interval : Int

/-- Scheduler.__init__: self.data = schedule (or a fresh dict when None);
self.max_interval = max_interval or conf.CELERYBEAT_MAX_LOOP_INTERVAL;
then cleanup() (a no-op) and setup_schedule(), which rebinds self.data to
dict_to_entries(conf.CELERYBEAT_SCHEDULE). The globals read from
celery.conf are passed in as conf_schedule and conf_max_loop_interval. -/
def init (schedule : Option ConfStore) (max_interval : Option Int)
    (conf_schedule : List (String × ConfigEntry))
    (conf_max_loop_interval : Int) (now : Time) : State :=
  let data := schedule.getD []
  let max_interval := pyOrInt max_interval conf_max_loop_interval
  -- cleanup(): pass
  -- setup_schedule(): self.data = self.dict_to_entries(conf.CELERYBEAT_SCHEDULE)
  let _ := data
  { data := dict_to_entries conf_schedule now
    max_interval := max_interval }

end Scheduler

namespace ClockService

/-- The signalling state of a ClockService: the shutdown-requested event
(_shutdown), the stopped-confirmed event (_stopped), and the scheduler it
drives (its store and max interval). -/
structure State where
  shutdown : Bool
  stopped : Bool
  store : Store
  max_interval : Int

/-- ClockService.sync: self._stopped.set(). -/
def sync (cs : State) : State :=
  { cs with stopped := true }

/-- sync together with a count of how many times sync has run, used to
trace the cleanup calls made by start. -/
def syncCounted (p : State × Nat) : State × Nat :=
  (sync p.1, p.2 + 1)

/-- ClockService.stop: sets the shutdown-requested event (the optional
blocking wait on _stopped is a thread join with no state effect here). -/
def stop (cs : State) : State :=
  { cs with shutdown := true }

/-- An exception delivered to the loop body during the tick or sleep of
one iteration: KeyboardInterrupt and SystemExit are caught by the inner
except clause; any other exception only unwinds through the finally. -/
inductive Sig where
  | keyboardInterrupt
  | systemExit
  | otherError
  deriving DecidableEq

/-- The environment of one loop iteration: whether another thread ran
stop() before this iteration checks the shutdown event, which exception
(if any) interrupts this iteration, and the wall-clock time the tick
would read. -/
structure IterIn where
  extShutdown : Bool
  signal : Option Sig
  now : Time

/-- How the while-loop of start() ended. -/
inductive ExitKind where
  | normal
  | interrupted
  | errored
  deriving DecidableEq

/-- The while True loop of ClockService.start: each iteration checks the
shutdown event (set externally by stop()), breaking when set; otherwise
runs scheduler.tick() and sleeps — a KeyboardInterrupt or SystemExit
raised there exits with the interrupted kind, another exception with the
errored kind. Returns none when the supplied iteration environments run
out before the loop exits (the loop is still running). -/
def runLoop (dispatch : Dispatch) : State → List IterIn →
    Option (State × ExitKind)
  | _, [] => none
  | cs, it :: rest =>
      let cs := if it.extShutdown then { cs with shutdown := true } else cs
      if cs.shutdown then some (cs, .normal)
      else
        match it.signal with
        | some .keyboardInterrupt => some (cs, .interrupted)
        | some .systemExit => some (cs, .interrupted)
        | some .otherError => some (cs, .errored)
        | none =>
            let (store, _interval) :=
              Scheduler.tick cs.store cs.max_interval it.now dispatch
            runLoop dispatch { cs with store := store } rest

/-- ClockService.start: runs the loop; on KeyboardInterrupt or SystemExit
the inner except clause calls self.sync(), and the outer finally calls
self.sync() again; on a normal break or on any other exception only the
finally clause runs sync (an other exception then propagates to the
caller, after the finally). The returned count is the number of sync
calls made on the way out. -/
def start (cs : State) (dispatch : Dispatch) (iters : List IterIn) :
    Option (State × Nat × ExitKind) :=
  match runLoop dispatch cs iters with
  | none => none
  | some (cs, .interrupted) =>
      -- except (KeyboardInterrupt, SystemExit): self.sync()
      let p := syncCounted (cs, 0)
      -- finally: self.sync()
      let p := syncCounted p
      some (p.1, p.2, .interrupted)
  | some (cs, .normal) =>
      -- finally: self.sync()
      let p := syncCounted (cs, 0)
      some (p.1, p.2, .normal)
  | some (cs, .errored) =>
      -- finally: self.sync(), then the exception continues unwinding
      let p := syncCounted (cs, 0)
      some (p.1, p.2, .errored)

end ClockService

/-! Helper lemmas about the embedded operations. -/

theorem maybe_due_eq (s : Store) (e : Entry) (now : Time) (d : Dispatch) :
    Scheduler.maybe_due s e now d
      = (if (e.due).1 then storeSet s e.name (e.next now) else s, (e.due).2) := by
  rcases h : e.due with ⟨b, t⟩
  cases b
  · simp [Scheduler.maybe_due, h]
  · rcases hd : d (e.next now).name (e.next now).args (e.next now).kwargs
        (e.next now).options with msg | res <;>
      simp [Scheduler.maybe_due, Scheduler.apply_async, Scheduler.reserve, h, hd]

/-- The store transformation a tick performs on the entries it visits:
each due entry is rebound (under its own name) to its advanced version. -/
def applyDue (now : Time) : Store → List (String × Entry) → Store
  | s, [] => s
  | s, (_, e) :: rest =>
      applyDue now (if (e.due).1 then storeSet s e.name (e.next now) else s) rest

@[simp] theorem keys_nil {α : Type} : keys ([] : List (String × α)) = [] := rfl

@[simp] theorem keys_cons {α : Type} (p : String × α) (s : List (String × α)) :
    keys (p :: s) = p.1 :: keys s := rfl

@[simp] theorem keys_append {α : Type} (a b : List (String × α)) :
    keys (a ++ b) = keys a ++ keys b := by
  simp [keys]

theorem tick_go_eq (now : Time) (d : Dispatch) :
    ∀ (l : List (String × Entry)) (s : Store) (acc : List Int),
      Scheduler.tick_go now d (s, acc) l
        = (applyDue now s l,
           acc ++ (l.map fun p => (p.2.due).2).filter (fun t => t != 0)) := by
  intro l
  induction l with
  | nil => intro s acc; simp [Scheduler.tick_go, applyDue]
  | cons p rest ih =>
      intro s acc
      rcases p with ⟨k, e⟩
      by_cases h0 : (e.due).2 = 0
      · simp [Scheduler.tick_go, maybe_due_eq, applyDue, ih, h0, List.filter_cons]
      · simp [Scheduler.tick_go, maybe_due_eq, applyDue, ih, h0, List.filter_cons]

theorem tick_eq (s : Store) (mi : Int) (now : Time) (d : Dispatch) :
    Scheduler.tick s mi now d
      = (applyDue now s s,
         Scheduler.pymin
           (((s.map fun p => (p.2.due).2).filter (fun t => t != 0)) ++ [mi])) := by
  rw [Scheduler.tick, tick_go_eq]
  rfl

theorem keys_storeSet {α : Type} (s : List (String × α)) (n : String) (v : α)
    (h : n ∈ keys s) : keys (storeSet s n v) = keys s := by
  induction s with
  | nil => simp at h
  | cons p rest ih =>
      rcases p with ⟨k, e⟩
      by_cases hk : k = n
      · subst hk; simp [storeSet]
      · have hn : n ∈ keys rest := by
          rcases (by simpa using h : n = k ∨ n ∈ keys rest) with h1 | h1
          · exact absurd h1.symm hk
          · exact h1
        simp only [storeSet, if_neg hk, keys_cons]
        rw [ih hn]

theorem keys_applyDue (now : Time) :
    ∀ (l : List (String × Entry)) (s : Store),
      (∀ p ∈ l, p.2.name ∈ keys s) → keys (applyDue now s l) = keys s := by
  intro l
  induction l with
  | nil => intro s _; rfl
  | cons p rest ih =>
      intro s h
      rcases p with ⟨k, e⟩
      have hstep :
          keys (if (e.due).1 then storeSet s e.name (e.next now) else s) = keys s := by
        by_cases hd : (e.due).1
        · rw [if_pos hd]; exact keys_storeSet s e.name (e.next now) (h (k, e) (by simp))
        · rw [if_neg hd]
      have hrest : ∀ p ∈ rest,
          p.2.name ∈ keys (if (e.due).1 then storeSet s e.name (e.next now) else s) := by
        intro p hp
        rw [hstep]
        exact h p (by simp [hp])
      calc keys (applyDue now (if (e.due).1 then storeSet s e.name (e.next now) else s) rest)
          = keys (if (e.due).1 then storeSet s e.name (e.next now) else s) := ih _ hrest
        _ = keys s := hstep

theorem storeGet_storeSet_self {α : Type} (s : List (String × α)) (n : String)
    (v : α) : storeGet (storeSet s n v) n = some v := by
  induction s with
  | nil => simp [storeSet, storeGet]
  | cons p rest ih =>
      rcases p with ⟨k, e⟩
      by_cases hk : k = n
      · subst hk; simp [storeSet, storeGet]
      · simp [storeSet, storeGet, hk, ih]

theorem storeSet_append {α : Type} :
    ∀ (pre : List (String × α)) (k : String) (e : α) (rest : List (String × α))
      (v : α), k ∉ keys pre →
      storeSet (pre ++ (k, e) :: rest) k v = pre ++ (k, v) :: rest := by
  intro pre
  induction pre with
  | nil => intro k e rest v _; simp [storeSet]
  | cons p tail ih =>
      intro k e rest v h
      rcases p with ⟨k1, e1⟩
      have h2 : ¬(k = k1) ∧ k ∉ keys tail := by
        simpa [not_or] using h
      have hk1 : ¬(k1 = k) := fun hcontra => h2.1 hcontra.symm
      simp only [List.cons_append, storeSet, if_neg hk1, List.append_eq]
      rw [ih k e rest v h2.2]

theorem applyDue_pre (now : Time) :
    ∀ (l : List (String × Entry)) (pre : Store),
      (∀ p ∈ l, p.2.name = p.1) → (keys l).Nodup →
      (∀ k ∈ keys l, k ∉ keys pre) →
      applyDue now (pre ++ l) l
        = pre ++ l.map (fun p => (p.1, if (p.2.due).1 then p.2.next now else p.2)) := by
  intro l
  induction l with
  | nil => intro pre _ _ _; simp [applyDue]
  | cons p rest ih =>
      intro pre hnames hnodup hdisj
      rcases p with ⟨k, e⟩
      have hname : e.name = k := hnames (k, e) (by simp)
      have hkpre : k ∉ keys pre := hdisj k (by simp)
      have hknotrest : k ∉ keys rest :=
        (List.nodup_cons.mp (by simpa using hnodup)).1
      have hdisj2 : ∀ k2 ∈ keys rest, k2 ∉ keys (pre ++ [(k, if (e.due).1 then e.next now else e)]) := by
        intro k2 hk2 hmem
        rw [keys_append] at hmem
        rcases List.mem_append.mp hmem with hmem | hmem
        · exact hdisj k2 (by simp [hk2]) hmem
        · have hk2k : k2 = k := by simpa using hmem
          subst hk2k
          exact hknotrest hk2
      have hstep :
          (if (e.due).1 then storeSet (pre ++ (k, e) :: rest) e.name (e.next now)
            else pre ++ (k, e) :: rest)
            = (pre ++ [(k, if (e.due).1 then e.next now else e)]) ++ rest := by
        by_cases hd : (e.due).1
        · rw [if_pos hd, hname, storeSet_append pre k e rest (e.next now) hkpre]
          simp [hd]
        · rw [if_neg hd]
          simp [hd]
      rw [applyDue, hstep,
        ih (pre ++ [(k, if (e.due).1 then e.next now else e)])
          (fun p hp => hnames p (by simp [hp]))
          ((List.nodup_cons.mp (by simpa using hnodup)).2)
          hdisj2]
      simp

theorem applyDue_self (now : Time) (s : Store) (hnames : ∀ p ∈ s, p.2.name = p.1)
    (hnodup : (keys s).Nodup) :
    applyDue now s s
      = s.map (fun p => (p.1, if (p.2.due).1 then p.2.next now else p.2)) := by
  have := applyDue_pre now s [] hnames hnodup (by simp)
  simpa using this

theorem foldl_min_le (l : List Int) : ∀ a : Int, l.foldl min a ≤ a := by
  induction l with
  | nil => intro a; simp
  | cons x t ih =>
      intro a
      calc (x :: t).foldl min a = t.foldl min (min a x) := rfl
        _ ≤ min a x := ih _
        _ ≤ a := min_le_left _ _

theorem foldl_min_le_mem (l : List Int) (x : Int) (hx : x ∈ l) :
    ∀ a : Int, l.foldl min a ≤ x := by
  induction l with
  | nil => simp at hx
  | cons y t ih =>
      intro a
      rcases (by simpa using hx) with rfl | hmem
      · calc (x :: t).foldl min a = t.foldl min (min a x) := rfl
          _ ≤ min a x := foldl_min_le t _
          _ ≤ x := min_le_right _ _
      · exact ih hmem _

theorem le_foldl_min (l : List Int) (c : Int) :
    ∀ a : Int, c ≤ a → (∀ x ∈ l, c ≤ x) → c ≤ l.foldl min a := by
  induction l with
  | nil => intro a ha _; simpa using ha
  | cons y t ih =>
      intro a ha hall
      have : c ≤ min a y := le_min ha (hall y (by simp))
      exact ih _ this (fun x hx => hall x (by simp [hx]))

theorem pymin_append_le_last (l : List Int) (m : Int) :
    Scheduler.pymin (l ++ [m]) ≤ m := by
  cases l with
  | nil => simp [Scheduler.pymin]
  | cons x t =>
      have hm : m ∈ t ++ [m] := by simp
      exact foldl_min_le_mem (t ++ [m]) m hm x

theorem le_pymin_append (l : List Int) (m c : Int) (hm : c ≤ m)
    (hl : ∀ x ∈ l, c ≤ x) : c ≤ Scheduler.pymin (l ++ [m]) := by
  cases l with
  | nil => simpa [Scheduler.pymin] using hm
  | cons x t =>
      have hx : c ≤ x := hl x (by simp)
      refine le_foldl_min (t ++ [m]) c x hx ?_
      intro y hy
      rcases (by simpa using hy) with hy1 | rfl
      · exact hl y (by simp [hy1])
      · exact hm

theorem sync_stopped (cs : ClockService.State) :
    (ClockService.sync cs).stopped = true := rfl

theorem next_total_run_count {σ : Type} (e : ScheduleEntry σ) (now : Time) :
    (e.next now).total_run_count = e.total_run_count + 1 := by
  simp [ScheduleEntry.next, ScheduleEntry.init, pyOrNat]

theorem next_last_run_at {σ : Type} (e : ScheduleEntry σ) (now : Time) :
    (e.next now).last_run_at = now := rfl

theorem tick_fst (s : Store) (mi : Int) (now : Time) (d : Dispatch) :
    (Scheduler.tick s mi now d).1 = applyDue now s s := by
  rw [tick_eq]

theorem tick_snd (s : Store) (mi : Int) (now : Time) (d : Dispatch) :
    (Scheduler.tick s mi now d).2
      = Scheduler.pymin
          (((s.map fun p => (p.2.due).2).filter (fun t => t != 0)) ++ [mi]) := by
  rw [tick_eq]

/-! Concrete fixtures used by witnesses and counterexamples. -/

/-- A policy that is always due, with 30 remaining. -/
def exPolicyDue : SchedPolicy := ⟨fun _ => (true, 30)⟩

/-- A policy that is never due, with 10 remaining. -/
def exPolicyIdle : SchedPolicy := ⟨fun _ => (false, 10)⟩

/-- A policy that is not due and reports zero remaining time. -/
def exPolicyZero : SchedPolicy := ⟨fun _ => (false, 0)⟩

def exEntryA : Entry := ⟨"a", exPolicyDue, [], [], [], 0, 0⟩

def exEntryB : Entry := ⟨"b", exPolicyIdle, [], [], [], 0, 2⟩

def exStoreAB : Store := [("a", exEntryA), ("b", exEntryB)]

def exStoreZero : Store := [("z", ⟨"z", exPolicyZero, [], [], [], 0, 0⟩)]

/-- A dispatch interface that always succeeds. -/
def exDispatchOk : Dispatch := fun _ _ _ _ => .ok ⟨"id-1"⟩

/-- A dispatch interface whose every call raises (transport down). -/
def exDispatchFail : Dispatch := fun _ _ _ _ => .error "connection refused"

def exClock : ClockService.State :=
  { shutdown := false, stopped := false, store := [], max_interval := 60 }

def exEntryP : ScheduleEntry PySched :=
  ⟨"p", .policy 30 none, [1], [("k", 2)], [], 3, 4⟩

/-! The claims. -/

/-- Claim C1, counterexample: tick does not collect the remaining value of
every entry — a remaining value of 0 is falsy in Python and is skipped by
the if next_time_to_run guard. With one entry whose remaining is 0 and
max_interval 5, tick returns 5, while the min over all remaining values
and max_interval would be 0. -/
theorem claim_C1_counterexample :
    (Scheduler.tick exStoreZero 5 0 exDispatchOk).2 = 5
    ∧ Scheduler.pymin ((exStoreZero.map fun p => (p.2.due).2) ++ [5]) = 0
    ∧ (5 : Int) ≠ 0 :=
  ⟨rfl, rfl, by decide⟩

/-- Claim C1 (amended): Scheduler.tick calls is_due on each entry, collects
the remaining value of every entry whose remaining value is nonzero
(Python truthiness) regardless of due-ness, and returns the min of the
collected values together with max_interval; with no entries it returns
max_interval. -/
theorem claim_C1_tick_min_formula :
    ∀ (store : Store) (mi : Int) (now : Time) (d : Dispatch),
      (Scheduler.tick store mi now d).2
        = Scheduler.pymin
            (((store.map fun p => (p.2.due).2).filter (fun t => t != 0)) ++ [mi])
      ∧ (Scheduler.tick ([] : Store) mi now d).2 = mi := by
  intro store mi now d
  exact ⟨tick_snd store mi now d, rfl⟩

/-- Claim C2 (confirmed): for a due entry whose dispatch raises, the store
binding under the entry name still holds the advanced entry produced by
entry.next (count incremented, timestamp updated), because reserve stores
it before the dispatch call is attempted. -/
theorem claim_C2_reserve_before_dispatch :
    ∀ (store : Store) (e : Entry) (now : Time) (d : Dispatch) (msg : String),
      (e.due).1 = true →
      d (e.next now).name (e.next now).args (e.next now).kwargs
          (e.next now).options = .error msg →
      storeGet (Scheduler.maybe_due store e now d).1 e.name = some (e.next now)
      ∧ (e.next now).total_run_count = e.total_run_count + 1
      ∧ (e.next now).last_run_at = now := by
  intro store e now d msg hdue _hfail
  refine ⟨?_, next_total_run_count e now, next_last_run_at e now⟩
  rw [maybe_due_eq]
  simp only [hdue, if_true]
  exact storeGet_storeSet_self store e.name (e.next now)

/-- Witness for claim C2: a concrete due entry against a transport whose
every call raises. -/
theorem claim_C2_witness :
    storeGet (Scheduler.maybe_due exStoreAB exEntryA 7 exDispatchFail).1
        exEntryA.name = some (exEntryA.next 7)
    ∧ (exEntryA.next 7).total_run_count = exEntryA.total_run_count + 1
    ∧ (exEntryA.next 7).last_run_at = 7 :=
  claim_C2_reserve_before_dispatch exStoreAB exEntryA 7 exDispatchFail
    "connection refused" rfl rfl

/-- Claim C3 (confirmed): provided max_interval and every remaining value
reported by the policies are nonnegative durations, tick returns a value
between 0 and max_interval, and exactly max_interval on an empty store. -/
theorem claim_C3_tick_bounds :
    ∀ (store : Store) (mi : Int) (now : Time) (d : Dispatch),
      0 ≤ mi → (∀ p ∈ store, 0 ≤ (p.2.due).2) →
      0 ≤ (Scheduler.tick store mi now d).2
      ∧ (Scheduler.tick store mi now d).2 ≤ mi
      ∧ (store = [] → (Scheduler.tick store mi now d).2 = mi) := by
  intro store mi now d hmi hrem
  rw [tick_snd]
  refine ⟨?_, pymin_append_le_last _ mi, ?_⟩
  · apply le_pymin_append _ mi 0 hmi
    intro x hx
    rcases List.mem_filter.mp hx with ⟨hmem, _⟩
    rcases List.mem_map.mp hmem with ⟨p, hp, rfl⟩
    exact hrem p hp
  · intro h
    subst h
    rfl

/-- Witness for claim C3: bounds at a concrete two-entry store. -/
theorem claim_C3_witness :
    0 ≤ (Scheduler.tick exStoreAB 60 0 exDispatchOk).2
    ∧ (Scheduler.tick exStoreAB 60 0 exDispatchOk).2 ≤ 60
    ∧ (exStoreAB = [] → (Scheduler.tick exStoreAB 60 0 exDispatchOk).2 = 60) :=
  claim_C3_tick_bounds exStoreAB 60 0 exDispatchOk (by decide) (by decide)

/-- Claim C4 (code bug): maybe_schedule returns timedelta(seconds=30) for
the bare integer 30 and stops there — the int branch does not fall through
to the branch that wraps a timedelta into the schedule policy class, so
the constructed entry carries a raw duration with no is_due method instead
of a fixed 30-second interval policy. The timedelta branch right below it
(fourth conjunct) shows the intended wrapping, which does honor the popped
relative flag. -/
theorem claim_C4_int_schedule_not_policy :
    (Scheduler.entry_of_config
        { name := "every-30s", schedule := .int 30, relative := some false }
        0).schedule = PySched.timedelta 30
    ∧ PySched.timedelta 30 ≠ PySched.policy 30 none
    ∧ PySched.timedelta 30 ≠ PySched.policy 30 (some false)
    ∧ (Scheduler.entry_of_config
        { name := "every-td", schedule := .timedelta 30, relative := some true }
        0).schedule = PySched.policy 30 (some true) :=
  ⟨rfl, by decide, by decide, rfl⟩

/-- Claim C5 (confirmed): tick is entirely insensitive to the outcomes of
the dispatch interface — a failing transport yields the same result as a
succeeding one, so a dispatch failure aborts nothing — and on a store
keyed by entry names every entry is still visited: due entries end up
advanced, the others untouched, for any dispatch behaviour including one
that fails on every call. No error from the dispatch path escapes tick,
whose result is total by construction (maybe_due consumes the
SchedulingError that apply_async returns). -/
theorem claim_C5_dispatch_failure_isolated :
    ∀ (store : Store) (mi : Int) (now : Time) (dfail dother : Dispatch),
      Scheduler.tick store mi now dfail = Scheduler.tick store mi now dother
      ∧ ((∀ p ∈ store, p.2.name = p.1) → (keys store).Nodup →
          (Scheduler.tick store mi now dfail).1
            = store.map (fun p => (p.1, if (p.2.due).1 then p.2.next now else p.2))) := by
  intro store mi now dfail dother
  constructor
  · rw [tick_eq, tick_eq]
  · intro hnames hnodup
    rw [tick_fst]
    exact applyDue_self now store hnames hnodup

/-- Witness for claim C5: the all-failing transport produces the same tick
as the all-succeeding one, and both due entries of the concrete store are
advanced. -/
theorem claim_C5_witness :
    Scheduler.tick exStoreAB 60 0 exDispatchFail
      = Scheduler.tick exStoreAB 60 0 exDispatchOk
    ∧ (Scheduler.tick exStoreAB 60 0 exDispatchFail).1
        = exStoreAB.map (fun p => (p.1, if (p.2.due).1 then p.2.next 0 else p.2)) := by
  have h := claim_C5_dispatch_failure_isolated exStoreAB 60 0 exDispatchFail exDispatchOk
  exact ⟨h.1, h.2 (by decide) (by decide)⟩

/-- Claim C6 (confirmed): ticking preserves the key set of the schedule
mapping exactly, provided the stored entries are keyed by their own names
(which is how tick feeds maybe_due and reserve): tick never inserts nor
removes a name, and reserve and maybe_due applied to an entry whose name
is already a key only rebind that key. -/
theorem claim_C6_key_set_preserved :
    (∀ (store : Store) (mi : Int) (now : Time) (d : Dispatch),
        (∀ p ∈ store, p.2.name ∈ keys store) →
        keys (Scheduler.tick store mi now d).1 = keys store)
    ∧ (∀ (store : Store) (e : Entry) (now : Time),
        e.name ∈ keys store → keys (Scheduler.reserve store e now).1 = keys store)
    ∧ (∀ (store : Store) (e : Entry) (now : Time) (d : Dispatch),
        e.name ∈ keys store →
        keys (Scheduler.maybe_due store e now d).1 = keys store) := by
  refine ⟨?_, ?_, ?_⟩
  · intro store mi now d h
    rw [tick_fst]
    exact keys_applyDue now store store h
  · intro store e now h
    exact keys_storeSet store e.name (e.next now) h
  · intro store e now d h
    rw [maybe_due_eq]
    by_cases hd : (e.due).1 = true
    · simp only [if_pos hd]
      exact keys_storeSet store e.name (e.next now) h
    · simp only [if_neg hd]

/-- Witness for claim C6: key preservation at a concrete store for each of
the three operations. -/
theorem claim_C6_witness :
    keys (Scheduler.tick exStoreAB 60 0 exDispatchOk).1 = keys exStoreAB
    ∧ keys (Scheduler.reserve exStoreAB exEntryB 5).1 = keys exStoreAB
    ∧ keys (Scheduler.maybe_due exStoreAB exEntryA 5 exDispatchFail).1
        = keys exStoreAB :=
  ⟨claim_C6_key_set_preserved.1 exStoreAB 60 0 exDispatchOk (by decide),
   claim_C6_key_set_preserved.2.1 exStoreAB exEntryB 5 (by decide),
   claim_C6_key_set_preserved.2.2 exStoreAB exEntryA 5 exDispatchFail (by decide)⟩

/-- Claim C7, counterexample: on the interrupt exit path sync runs twice,
not exactly once — once in the except clause for KeyboardInterrupt or
SystemExit and once more in the finally clause. -/
theorem claim_C7_counterexample :
    Option.map (fun r => (r.2.1, r.2.2))
        (ClockService.start exClock exDispatchOk
          [{ extShutdown := false, signal := some .keyboardInterrupt, now := 0 }])
      = some (2, ClockService.ExitKind.interrupted)
    ∧ (2 : Nat) ≠ 1 :=
  ⟨rfl, by decide⟩

/-- Claim C7 (amended): on every exit path of start the stopped flag ends
set and sync has run at least once: exactly once on a normal loop exit
and on an unexpected error, and exactly twice on an interrupt (the except
clause and the finally clause each call it). -/
theorem claim_C7_sync_on_every_exit :
    ∀ (cs : ClockService.State) (d : Dispatch) (iters : List ClockService.IterIn)
      (st : ClockService.State) (n : Nat) (ek : ClockService.ExitKind),
      ClockService.start cs d iters = some (st, n, ek) →
      st.stopped = true ∧ 1 ≤ n
      ∧ (ek = .interrupted → n = 2)
      ∧ (ek ≠ .interrupted → n = 1) := by
  intro cs d iters st n ek h
  unfold ClockService.start at h
  rcases hr : ClockService.runLoop d cs iters with _ | ⟨cs1, ek1⟩
  · rw [hr] at h
    simp at h
  · rw [hr] at h
    cases ek1 with
    | normal =>
        simp only [ClockService.syncCounted, Option.some.injEq, Prod.mk.injEq] at h
        obtain ⟨h1, h2, h3⟩ := h
        subst h1; subst h2; subst h3
        exact ⟨sync_stopped _, Nat.le_refl 1,
          fun hek => absurd hek (by decide), fun _ => rfl⟩
    | interrupted =>
        simp only [ClockService.syncCounted, Option.some.injEq, Prod.mk.injEq] at h
        obtain ⟨h1, h2, h3⟩ := h
        subst h1; subst h2; subst h3
        exact ⟨sync_stopped _, by decide,
          fun _ => rfl, fun hek => absurd rfl hek⟩
    | errored =>
        simp only [ClockService.syncCounted, Option.some.injEq, Prod.mk.injEq] at h
        obtain ⟨h1, h2, h3⟩ := h
        subst h1; subst h2; subst h3
        exact ⟨sync_stopped _, Nat.le_refl 1,
          fun hek => absurd hek (by decide), fun _ => rfl⟩

/-- Witness for claim C7: a run that observes the shutdown flag on its
first iteration exits normally with one sync call. -/
theorem claim_C7_witness :
    ({ shutdown := true, stopped := true, store := [], max_interval := 60 } :
        ClockService.State).stopped = true
    ∧ 1 ≤ 1
    ∧ (ClockService.ExitKind.normal = .interrupted → (1 : Nat) = 2)
    ∧ (ClockService.ExitKind.normal ≠ .interrupted → (1 : Nat) = 1) :=
  claim_C7_sync_on_every_exit exClock exDispatchOk
    [{ extShutdown := true, signal := none, now := 0 }]
    { shutdown := true, stopped := true, store := [], max_interval := 60 } 1
    .normal rfl

/-- Claim C8 (confirmed): next returns a new entry with the same name,
schedule, args, kwargs and options, total_run_count incremented by one,
and last_run_at set to the current time — hence no earlier than the old
timestamp whenever the clock read is no earlier than it. The embedding is
purely functional, as the source constructs a fresh instance and leaves
the receiver untouched. -/
theorem claim_C8_next_advances :
    ∀ (σ : Type) (e : ScheduleEntry σ) (now : Time),
      (e.next now).name = e.name
      ∧ (e.next now).schedule = e.schedule
      ∧ (e.next now).args = e.args
      ∧ (e.next now).kwargs = e.kwargs
      ∧ (e.next now).options = e.options
      ∧ (e.next now).total_run_count = e.total_run_count + 1
      ∧ (e.last_run_at ≤ now → e.last_run_at ≤ (e.next now).last_run_at) := by
  intro σ e now
  refine ⟨rfl, rfl, rfl, rfl, rfl, next_total_run_count e now, ?_⟩
  intro h
  rw [next_last_run_at]
  exact h

/-- Witness for claim C8: a concrete entry advanced at a later clock read. -/
theorem claim_C8_witness :
    exEntryP.last_run_at ≤ (exEntryP.next 5).last_run_at
    ∧ (exEntryP.next 5).total_run_count = exEntryP.total_run_count + 1 := by
  have h := claim_C8_next_advances PySched exEntryP 5
  exact ⟨h.2.2.2.2.2.2 (by decide), h.2.2.2.2.2.1⟩

/-- Claim C9 (confirmed): sync is idempotent — calling it any number of
times after the first leaves the ClockService state (the stopped flag
included) identical to the state after the first call. -/
theorem claim_C9_sync_idempotent :
    ∀ (cs : ClockService.State) (n : Nat),
      ClockService.sync^[n + 1] cs = ClockService.sync cs := by
  intro cs n
  induction n with
  | zero => rfl
  | succ k ih =>
      rw [Function.iterate_succ_apply', ih]
      rfl

/-- Claim C10 (confirmed): the schedule argument of the Scheduler
constructor has no effect on the resulting entry mapping —
setup_schedule unconditionally rebinds self.data to the entries built
from the global configuration conf.CELERYBEAT_SCHEDULE. -/
theorem claim_C10_init_ignores_schedule_arg :
    ∀ (s1 s2 : Option Scheduler.ConfStore) (mi : Option Int)
      (conf : List (String × Scheduler.ConfigEntry)) (cmax : Int) (now : Time),
      (Scheduler.init s1 mi conf cmax now).data
        = (Scheduler.init s2 mi conf cmax now).data
      ∧ (Scheduler.init s1 mi conf cmax now).data
        = Scheduler.dict_to_entries conf now := by
  intro s1 s2 mi conf cmax now
  exact ⟨rfl, rfl⟩

end Beat
